import Mathlib

/-!
Verification of the TurboBot wind-turbine monitor against its design
specification.

The first half embeds the telemetry module `src/lib/turbineData.ts`:
the synthetic data generator, the alert analyzer and the metric
aggregator.  JavaScript numbers are modelled as rationals, `Math.round`
as Mathlib's `round` (both round half toward positive infinity),
`Math.sin` as an opaque function parameter, `Math.random` as a stream of
draws passed explicitly, and `Date.now()` as an integer millisecond
clock value.  Accessing a property of `undefined` (the result of
indexing into an empty array) throws in JavaScript, so the two functions
that do so are embedded with an `Option` result whose `none` branch is
that failure.

The second half models the retrieval pipeline (chunker, TF-IDF corpus
index, retriever, context assembler, orchestrator) described in the
specification; its Python sources are not part of this snapshot, so the
definitions are modelled from the spec, as their doc comments state.
-/

namespace TurboBot

/-- Status field of a telemetry point (`turbineData.ts`, line 7). -/
inductive TStatus where
  | operating
  | warning
  | offline
deriving DecidableEq

/-- One telemetry point (`TurbineDataPoint`, `turbineData.ts` lines 1-8).
The ISO timestamp string is represented by the underlying millisecond
value, which `Date.toISOString` encodes injectively. -/
structure TurbineDataPoint where
  timestamp : ℤ
  wind_speed : ℚ
  power_output : ℚ
  temperature : ℚ
  vibration : ℚ
  status : TStatus
deriving DecidableEq

/-- Alert type tags (`TurbineAlert.type`, `turbineData.ts` line 12). -/
inductive AType where
  | high_temp
  | high_vibration
  | low_performance
deriving DecidableEq

/-- Alert severities (`TurbineAlert.severity`, `turbineData.ts` line 13). -/
inductive ASeverity where
  | warning
  | critical
deriving DecidableEq

/-- An alert (`TurbineAlert`, `turbineData.ts` lines 10-16). -/
structure TurbineAlert where
  id : String
  type : AType
  severity : ASeverity
  message : String
  timestamp : ℤ
deriving DecidableEq

/-- The clamped wind speed of iteration `i` (`turbineData.ts` lines 27-28),
before the one-decimal rounding applied on storage. -/
def windSpeedRaw (sinq : ℚ → ℚ) (r1 : ℚ) (i : ℕ) : ℚ :=
  max 3 (min 15 (8 + sinq ((i : ℚ) / 8) * 3 + (r1 - 1/2) * 2))

/-- The clamped power output of iteration `i` (`turbineData.ts` lines 31-33),
before the rounding applied on storage. -/
def powerOutputRaw (sinq : ℚ → ℚ) (r1 r2 : ℚ) (i : ℕ) : ℚ :=
  let degradationFactor : ℚ := if i < 12 then 85/100 else 1
  let idealPower := (windSpeedRaw sinq r1 i / 12) ^ 3 * 2000 * degradationFactor
  max 0 (min 2000 (idealPower + (r2 - 1/2) * 100))

/-- The telemetry point pushed by the loop iteration with counter `i`
(`turbineData.ts` lines 24-56).  `r1` and `r2` are the two `Math.random()`
draws of the iteration, in evaluation order. -/
def genPoint (sinq : ℚ → ℚ) (now : ℤ) (r1 r2 : ℚ) (i : ℕ) : TurbineDataPoint :=
  let timestamp : ℤ := now - (i : ℤ) * 60 * 60 * 1000
  let windSpeed := windSpeedRaw sinq r1 i
  let powerOutput := powerOutputRaw sinq r1 r2 i
  let baseTemp := 35 + powerOutput / 2000 * 30
  let temperature := if i < 15 then baseTemp + 15 else baseTemp
  let baseVibration := 1 + powerOutput / 2000 * 2
  let vibration := if i < 15 then baseVibration + 25/10 else baseVibration
  let status := if 70 < temperature ∨ 4 < vibration then TStatus.warning else TStatus.operating
  { timestamp := timestamp
    wind_speed := (round (windSpeed * 10) : ℚ) / 10
    power_output := (round powerOutput : ℚ)
    temperature := (round temperature : ℚ)
    vibration := (round (vibration * 10) : ℚ) / 10
    status := status }

/-- `generateTurbineData` (`turbineData.ts` lines 19-60).  The loop counts
`i` from 47 down to 0, so emission index `j` corresponds to `i = 47 - j`
and consumes random draws `2*j` and `2*j + 1`. -/
def generateTurbineData (sinq : ℚ → ℚ) (now : ℤ) (rand : ℕ → ℚ) : List TurbineDataPoint :=
  (List.range 48).map fun j => genPoint sinq now (rand (2 * j)) (rand (2 * j + 1)) (47 - j)

/-- The `high_temp` alert pushed by `analyzeAlerts` (`turbineData.ts`
lines 66-74). -/
def tempAlert (latestData : TurbineDataPoint) : TurbineAlert :=
  { id := "temp-1", type := AType.high_temp,
    severity := if 75 < latestData.temperature then ASeverity.critical else ASeverity.warning,
    message := "High temperature detected: " ++ toString latestData.temperature ++ "°C (threshold: 70°C)",
    timestamp := latestData.timestamp }

/-- The `high_vibration` alert pushed by `analyzeAlerts` (`turbineData.ts`
lines 76-84). -/
def vibAlert (latestData : TurbineDataPoint) : TurbineAlert :=
  { id := "vib-1", type := AType.high_vibration,
    severity := if 45/10 < latestData.vibration then ASeverity.critical else ASeverity.warning,
    message := "Elevated vibration levels: " ++ toString latestData.vibration ++ " (threshold: 4.0)",
    timestamp := latestData.timestamp }

/-- The `low_performance` alert pushed by `analyzeAlerts` (`turbineData.ts`
lines 92-101); `degradation` is the rounded percentage drop. -/
def perfAlert (latestData : TurbineDataPoint) (degradation : ℤ) : TurbineAlert :=
  { id := "perf-1", type := AType.low_performance, severity := ASeverity.warning,
    message := "Power output declining: " ++ toString degradation ++ "% drop over past 12 hours",
    timestamp := latestData.timestamp }

/-- Average power of `data.slice(-12)` (`turbineData.ts` lines 87-88);
`slice(-12)` keeps the last 12 elements, hence the truncated-subtraction
`drop`. -/
def avgRecentPower (data : List TurbineDataPoint) : ℚ :=
  let recentData := data.drop (data.length - 12)
  (recentData.map TurbineDataPoint.power_output).sum / (recentData.length : ℚ)

/-- Average power of `data.slice(-24, -12)` (`turbineData.ts` lines 89-90). -/
def avgOlderPower (data : List TurbineDataPoint) : ℚ :=
  let olderData := (data.take (data.length - 12)).drop (data.length - 24)
  (olderData.map TurbineDataPoint.power_output).sum / (olderData.length : ℚ)

/-- `analyzeAlerts` (`turbineData.ts` lines 62-104).  The unguarded
`data[data.length - 1]` read is the `none` branch; the average of an empty
slice (`NaN` in JavaScript, never `> 0`) becomes the rational `0 / 0 = 0`,
never `> 0` either; the three conditional pushes become the concatenation
of three conditional singletons, in push order. -/
def analyzeAlerts (data : List TurbineDataPoint) : Option (List TurbineAlert) :=
  match data.getLast? with
  | none => none
  | some latestData =>
    some ((if 70 < latestData.temperature then [tempAlert latestData] else []) ++
      (if 4 < latestData.vibration then [vibAlert latestData] else []) ++
      (if 0 < avgOlderPower data ∧
          15/100 < (avgOlderPower data - avgRecentPower data) / avgOlderPower data then
        [perfAlert latestData
          (round ((avgOlderPower data - avgRecentPower data) / avgOlderPower data * 100))]
      else []))

/-- Result record of `calculateMetrics` (`turbineData.ts` lines 111-119). -/
structure TurbineMetrics where
  avgPower : ℚ
  avgWindSpeed : ℚ
  currentStatus : TStatus
  currentPower : ℚ
  currentWindSpeed : ℚ
  currentTemp : ℚ
  currentVibration : ℚ
deriving DecidableEq

/-- `calculateMetrics` (`turbineData.ts` lines 106-120), with the unguarded
`data[data.length - 1]` read as the `none` branch. -/
def calculateMetrics (data : List TurbineDataPoint) : Option TurbineMetrics :=
  match data.getLast? with
  | none => none
  | some latestData =>
    some { avgPower := (round ((data.map TurbineDataPoint.power_output).sum / (data.length : ℚ)) : ℚ)
           avgWindSpeed := (round ((data.map TurbineDataPoint.wind_speed).sum / (data.length : ℚ) * 10) : ℚ) / 10
           currentStatus := latestData.status
           currentPower := latestData.power_output
           currentWindSpeed := latestData.wind_speed
           currentTemp := latestData.temperature
           currentVibration := latestData.vibration }

/-- Error taxonomy of the retrieval pipeline (spec section 7). -/
inductive RagError where
  | ConfigError
  | EmptyCorpusError
  | VocabularyExhaustedError
  | NotReadyError
deriving DecidableEq

/-- Modelled from the spec: a source document (section 3); the document
loader is outside this snapshot. -/
structure Document where
  id : ℕ
  source_path : String
  raw_text : String
deriving DecidableEq

/-- Modelled from the spec: a chunk (section 3); the chunker source
(`rag/document_chunker.py`) is not part of this snapshot.  `chunk_id` is
the stable (document_id, ordinal) key. -/
structure Chunk where
  chunk_id : ℕ × ℕ
  document_id : ℕ
  ordinal : ℕ
  text : String
  char_start : ℕ
  char_end : ℕ
  source_path : String
deriving DecidableEq

/-- Modelled from the spec (section 4.1): the chunking loop — while
`off < L`, emit the span `[off, min (off + cs) L)` and advance by
`cs - ov`.  The validity fact `ov < cs` checked by `chunk` before the loop
starts is what makes the loop terminate. -/
def chunkFrom (L cs ov : ℕ) (h : ov < cs) (off : ℕ) : List (ℕ × ℕ) :=
  if _hO : off < L then (off, min (off + cs) L) :: chunkFrom L cs ov h (off + (cs - ov))
  else []
termination_by L - off
decreasing_by omega

/-- The spans of a whole document of length `L`. -/
def chunkSpans (L cs ov : ℕ) (h : ov < cs) : List (ℕ × ℕ) := chunkFrom L cs ov h 0

/-- Length of the intersection of two half-open spans. -/
def overlapLen (a b : ℕ × ℕ) : ℕ := min a.2 b.2 - max a.1 b.1

/-- The intersection lengths of the consecutive span pairs of a list. -/
def pairOverlaps (spans : List (ℕ × ℕ)) : List ℕ :=
  (spans.zip spans.tail).map fun ab => overlapLen ab.1 ab.2

/-- Modelled from the spec (section 4.1): `chunk(document, chunk_size,
overlap)`; the parameters are integers so that the `0 ≤ overlap` validity
bound is expressible, and `ConfigError` is returned exactly when validity
fails, before any chunk is produced. -/
def chunk (doc : Document) (chunk_size overlap : ℤ) : Except RagError (List Chunk) :=
  if h : 0 < chunk_size ∧ 0 ≤ overlap ∧ overlap < chunk_size then
    let spans := chunkSpans doc.raw_text.length chunk_size.toNat overlap.toNat (by omega)
    .ok (spans.enum.map fun pr =>
      { chunk_id := (doc.id, pr.1), document_id := doc.id, ordinal := pr.1,
        text := String.mk ((doc.raw_text.toList.drop pr.2.1).take (pr.2.2 - pr.2.1)),
        char_start := pr.2.1, char_end := pr.2.2, source_path := doc.source_path })
  else .error RagError.ConfigError

/-- Modelled from the spec: the primitives of the index that are either
not rational-valued or not pinned down by the spec — the natural logarithm
of the inverse-chunk-frequency weight, the square root of unit
normalization, and the tokenizer (case-folding, stop-word removal and
splitting; `rag/retriever.py` is not part of this snapshot).  Every
property proved below holds for an arbitrary choice of these. -/
structure RagPrims where
  log : ℚ → ℚ
  sqrt : ℚ → ℚ
  tokenize : String → List String

/-- Modelled from the spec (section 4.2): the candidate terms of a text —
its 1-grams and adjacent 2-grams after tokenization. -/
def termsOf (pr : RagPrims) (text : String) : List String :=
  let ts := pr.tokenize text
  ts ++ (ts.zip ts.tail).map fun ab => ab.1 ++ " " ++ ab.2

/-- Modelled from the spec: document frequency — in how many chunks a term
occurs. -/
def docFreq (pr : RagPrims) (chunks : List Chunk) (t : String) : ℕ :=
  chunks.countP fun c => decide (t ∈ termsOf pr c.text)

/-- Modelled from the spec: corpus-wide frequency of a term. -/
def corpusFreq (pr : RagPrims) (chunks : List Chunk) (t : String) : ℕ :=
  (chunks.map fun c => (termsOf pr c.text).count t).sum

/-- Deduplication keeping the first appearance of each term. -/
def dedupFirst (ts : List String) : List String :=
  ts.foldl (fun acc t => if t ∈ acc then acc else acc ++ [t]) []

/-- Modelled from the spec (section 4.2): vocabulary candidates — every
distinct term, in first-appearance order, whose document frequency is at
least `min_df` and at most the `max_df` fraction of the corpus. -/
def candidateTerms (pr : RagPrims) (chunks : List Chunk) (min_df : ℕ) (max_df : ℚ) :
    List String :=
  (dedupFirst ((chunks.map fun c => termsOf pr c.text).foldl (· ++ ·) [])).filter
    fun t => decide (min_df ≤ docFreq pr chunks t ∧
      (docFreq pr chunks t : ℚ) ≤ max_df * chunks.length)

/-- Modelled from the spec (section 4.2): the vocabulary — the
`max_features` candidates of highest corpus-wide frequency; the sort is
stable, so ties keep first-appearance order. -/
def vocabOf (pr : RagPrims) (chunks : List Chunk) (max_features min_df : ℕ) (max_df : ℚ) :
    List String :=
  ((candidateTerms pr chunks min_df max_df).mergeSort
    fun a b => decide (corpusFreq pr chunks b ≤ corpusFreq pr chunks a)).take max_features

/-- Modelled from the spec (section 4.2): the raw tf-idf vector of a term
list over vocabulary `vocab` with aligned document frequencies `dfs` and
corpus size `N`. -/
def rawVector (pr : RagPrims) (vocab : List String) (dfs : List ℕ) (N : ℕ)
    (terms : List String) : List ℚ :=
  (vocab.zip dfs).map fun td => (terms.count td.1 : ℚ) * pr.log ((N : ℚ) / (td.2 : ℚ))

/-- Modelled from the spec (section 4.2): unit normalization — divide by
the square root of the sum of squares. -/
def normalize (pr : RagPrims) (v : List ℚ) : List ℚ :=
  v.map fun x => x / pr.sqrt ((v.map fun y => y * y).sum)

/-- Dot product of two dense vectors. -/
def dot (v w : List ℚ) : ℚ := ((v.zip w).map fun xy => xy.1 * xy.2).sum

/-- Modelled from the spec (sections 3 and 4.2): the immutable index
handle — vocabulary, per-term document frequencies, corpus size, and one
normalized vector per chunk; the primitives are carried along for query
vectorization. -/
structure IndexHandle where
  prims : RagPrims
  vocab : List String
  dfs : List ℕ
  totalChunks : ℕ
  entries : List (Chunk × List ℚ)

/-- Modelled from the spec (section 4.2): `build` — `EmptyCorpusError` on
an empty chunk sequence, `VocabularyExhaustedError` when no vocabulary
term survives, otherwise an index handle. -/
def build (pr : RagPrims) (chunks : List Chunk) (max_features min_df : ℕ) (max_df : ℚ) :
    Except RagError IndexHandle :=
  if chunks = [] then .error RagError.EmptyCorpusError
  else
    let vocab := vocabOf pr chunks max_features min_df max_df
    if vocab = [] then .error RagError.VocabularyExhaustedError
    else
      let dfs := vocab.map (docFreq pr chunks)
      .ok { prims := pr, vocab := vocab, dfs := dfs, totalChunks := chunks.length,
            entries := chunks.map fun c =>
              (c, normalize pr (rawVector pr vocab dfs chunks.length (termsOf pr c.text))) }

/-- Modelled from the spec (section 4.2 query contract): `vectorize` over
the fixed vocabulary and build-time frequencies; out-of-vocabulary query
terms contribute nothing. -/
def vectorize (idx : IndexHandle) (query : String) : List ℚ :=
  normalize idx.prims
    (rawVector idx.prims idx.vocab idx.dfs idx.totalChunks (termsOf idx.prims query))

/-- A retrieval result (section 3). -/
structure RetrievalResult where
  chunk_id : ℕ × ℕ
  score : ℚ
  text : String
  source_path : String
deriving DecidableEq

/-- Modelled from the spec (section 4.3): the ranking order — descending
score, ties by ascending (document_id, ordinal). -/
def rankRel (a b : Chunk × ℚ) : Prop :=
  b.2 < a.2 ∨ (a.2 = b.2 ∧ (a.1.document_id < b.1.document_id ∨
    (a.1.document_id = b.1.document_id ∧ a.1.ordinal ≤ b.1.ordinal)))

instance (a b : Chunk × ℚ) : Decidable (rankRel a b) := by
  unfold rankRel
  infer_instance

/-- Modelled from the spec (section 4.3): the scored chunk list of a query
after ranking, score-floor filtering and top-k truncation. -/
def retrieveRanked (idx : IndexHandle) (query : String) (top_k : ℕ) (min_score : ℚ) :
    List (Chunk × ℚ) :=
  let qv := vectorize idx query
  let scored := idx.entries.map fun e => (e.1, dot qv e.2)
  (((scored.mergeSort fun a b => decide (rankRel a b)).filter
    fun x => decide (min_score ≤ x.2)).take top_k)

/-- Conversion of a scored chunk into the ephemeral result record. -/
def toResult (x : Chunk × ℚ) : RetrievalResult :=
  { chunk_id := x.1.chunk_id, score := x.2, text := x.1.text, source_path := x.1.source_path }

/-- Modelled from the spec (section 4.3): `retrieve`. -/
def retrieve (idx : IndexHandle) (query : String) (top_k : ℕ) (min_score : ℚ) :
    List RetrievalResult :=
  (retrieveRanked idx query top_k min_score).map toResult

/-- Modelled from the spec (section 4.4): `assemble` — concatenates the
annotated result texts, truncating the last included block at the
character budget; an empty result list yields the explicit empty-context
marker. -/
def assemble (results : List RetrievalResult) (max_chars : ℕ) : String :=
  if results = [] then "[NO RELEVANT CONTEXT]"
  else results.foldl (fun acc r =>
    let block := "[" ++ r.source_path ++ "] " ++ r.text ++ "\n"
    if acc.length + block.length ≤ max_chars then acc ++ block
    else acc ++ block.take (max_chars - acc.length)) ""

/-- Modelled from the spec (section 6): the configuration surface, fixed
at initialization. -/
structure RagConfig where
  chunk_size : ℤ
  overlap : ℤ
  max_features : ℕ
  min_df : ℕ
  max_df : ℚ
  top_k : ℕ
  min_score : ℚ
  max_chars : ℕ

/-- Modelled from the spec (section 4.5): the orchestrator state machine
`Uninitialized → Initializing → Ready | Failed`. -/
inductive OrchState where
  | Uninitialized
  | Initializing
  | Ready (idx : IndexHandle)
  | Failed

/-- Whether the orchestrator reached the `Ready` state. -/
def OrchState.isReady : OrchState → Bool
  | OrchState.Ready _ => true
  | _ => false

/-- Modelled from the spec (sections 4.5 and 6): `initialize` — chunk
every document, build the index over the full chunk set, and end `Ready`,
or `Failed` on any chunking or build error. -/
def initializePipeline (pr : RagPrims) (cfg : RagConfig) (docs : List Document) : OrchState :=
  match (do
      let chunkLists ← docs.mapM fun d => chunk d cfg.chunk_size cfg.overlap
      build pr (chunkLists.foldl (· ++ ·) []) cfg.max_features cfg.min_df cfg.max_df :
      Except RagError IndexHandle) with
  | .ok idx => OrchState.Ready idx
  | .error _ => OrchState.Failed

/-- Modelled from the spec (section 4.5): `retrieve_context`, the single
query entry point; every state other than `Ready` fails fast with
`NotReadyError`. -/
def retrieve_context (st : OrchState) (query : String) (top_k : ℕ) (min_score : ℚ)
    (max_chars : ℕ) : Except RagError String :=
  match st with
  | OrchState.Ready idx => .ok (assemble (retrieve idx query top_k min_score) max_chars)
  | _ => .error RagError.NotReadyError

/-- Trivial primitives used to instantiate hypotheses concretely. -/
def trivialPrims : RagPrims :=
  { log := fun _ => 1, sqrt := fun _ => 1, tokenize := fun _ => [] }

/-- A sample chunk used to instantiate hypotheses concretely. -/
def sampleChunk : Chunk :=
  { chunk_id := (0, 0), document_id := 0, ordinal := 0, text := "turbine bearing",
    char_start := 0, char_end := 15, source_path := "manual.txt" }

/-- A sample index handle used to instantiate hypotheses concretely. -/
def sampleIndex : IndexHandle :=
  { prims := trivialPrims, vocab := ["turbine"], dfs := [1], totalChunks := 1, entries := [] }

/-- A concrete 25-character document used to instantiate hypotheses. -/
def cexDoc : Document :=
  { id := 0, source_path := "manual.txt", raw_text := "abcdefghijklmnopqrstuvwxy" }

/-- A concrete empty document used to instantiate hypotheses. -/
def emptyDoc : Document :=
  { id := 1, source_path := "empty.txt", raw_text := "" }

/-- A sample telemetry point used to instantiate hypotheses concretely. -/
def samplePoint : TurbineDataPoint :=
  { timestamp := 0, wind_speed := 7, power_output := 100, temperature := 50,
    vibration := 2, status := TStatus.operating }

end TurboBot

namespace TurboBot

lemma round_bounds (a b : ℤ) (x : ℚ) (h1 : (a : ℚ) ≤ x) (h2 : x ≤ (b : ℚ)) :
    a ≤ round x ∧ round x ≤ b := by
  rw [round_eq]
  constructor
  · exact Int.le_floor.mpr (by linarith)
  · have hb : (⌊x + 1/2⌋ : ℤ) ≤ ⌊(b : ℚ) + 1/2⌋ :=
      Int.floor_le_floor (show x + 1/2 ≤ (b : ℚ) + 1/2 by linarith)
    rw [Int.floor_int_add] at hb
    have h12 : ⌊(1/2 : ℚ)⌋ = 0 := by norm_num
    omega

lemma windSpeedRaw_bounds (sinq : ℚ → ℚ) (r1 : ℚ) (i : ℕ) :
    3 ≤ windSpeedRaw sinq r1 i ∧ windSpeedRaw sinq r1 i ≤ 15 := by
  unfold windSpeedRaw
  exact ⟨le_max_left _ _, max_le (by norm_num) (min_le_left _ _)⟩

lemma powerOutputRaw_bounds (sinq : ℚ → ℚ) (r1 r2 : ℚ) (i : ℕ) :
    0 ≤ powerOutputRaw sinq r1 r2 i ∧ powerOutputRaw sinq r1 r2 i ≤ 2000 := by
  unfold powerOutputRaw
  exact ⟨le_max_left _ _, max_le (by norm_num) (min_le_left _ _)⟩

lemma genPoint_status (sinq : ℚ → ℚ) (now : ℤ) (r1 r2 : ℚ) (i : ℕ) :
    (genPoint sinq now r1 r2 i).status ≠ TStatus.offline := by
  unfold genPoint
  dsimp only
  split <;> split <;> simp

lemma genPoint_bounds (sinq : ℚ → ℚ) (now : ℤ) (r1 r2 : ℚ) (i : ℕ) :
    3 ≤ (genPoint sinq now r1 r2 i).wind_speed ∧
    (genPoint sinq now r1 r2 i).wind_speed ≤ 15 ∧
    0 ≤ (genPoint sinq now r1 r2 i).power_output ∧
    (genPoint sinq now r1 r2 i).power_output ≤ 2000 ∧
    (genPoint sinq now r1 r2 i).status ≠ TStatus.offline := by
  obtain ⟨hw1, hw2⟩ := windSpeedRaw_bounds sinq r1 i
  obtain ⟨hp1, hp2⟩ := powerOutputRaw_bounds sinq r1 r2 i
  have hwf : (genPoint sinq now r1 r2 i).wind_speed =
      (round (windSpeedRaw sinq r1 i * 10) : ℚ) / 10 := rfl
  have hpf : (genPoint sinq now r1 r2 i).power_output =
      (round (powerOutputRaw sinq r1 r2 i) : ℚ) := rfl
  have hr := round_bounds 30 150 (windSpeedRaw sinq r1 i * 10)
    (by push_cast; linarith) (by push_cast; linarith)
  have hp := round_bounds 0 2000 (powerOutputRaw sinq r1 r2 i)
    (by push_cast; linarith) (by push_cast; linarith)
  have hr1 : ((30 : ℤ) : ℚ) ≤ (round (windSpeedRaw sinq r1 i * 10) : ℚ) :=
    Int.cast_le.mpr hr.1
  have hr2 : ((round (windSpeedRaw sinq r1 i * 10) : ℤ) : ℚ) ≤ ((150 : ℤ) : ℚ) :=
    Int.cast_le.mpr hr.2
  have hq1 : ((0 : ℤ) : ℚ) ≤ (round (powerOutputRaw sinq r1 r2 i) : ℚ) :=
    Int.cast_le.mpr hp.1
  have hq2 : ((round (powerOutputRaw sinq r1 r2 i) : ℤ) : ℚ) ≤ ((2000 : ℤ) : ℚ) :=
    Int.cast_le.mpr hp.2
  push_cast at hr1 hr2 hq1 hq2
  refine ⟨?_, ?_, ?_, ?_, genPoint_status sinq now r1 r2 i⟩
  · rw [hwf]; linarith
  · rw [hwf]; linarith
  · rw [hpf]; linarith
  · rw [hpf]; linarith

/-- C9: every list returned by `generateTurbineData` contains exactly 48
data points; the clamped wind speed of every iteration lies in [3, 15] and
the clamped power output in [0, 2000] before rounding, the stored rounded
fields lie in the same ranges, and the status `offline` allowed by the
`TurbineDataPoint` type is never produced. -/
theorem claim_C9_generate_invariants :
    ∀ (sinq : ℚ → ℚ) (now : ℤ) (rand : ℕ → ℚ),
      (generateTurbineData sinq now rand).length = 48 ∧
      (∀ r1 i, 3 ≤ windSpeedRaw sinq r1 i ∧ windSpeedRaw sinq r1 i ≤ 15) ∧
      (∀ r1 r2 i, 0 ≤ powerOutputRaw sinq r1 r2 i ∧ powerOutputRaw sinq r1 r2 i ≤ 2000) ∧
      ∀ p ∈ generateTurbineData sinq now rand,
        3 ≤ p.wind_speed ∧ p.wind_speed ≤ 15 ∧
        0 ≤ p.power_output ∧ p.power_output ≤ 2000 ∧ p.status ≠ TStatus.offline := by
  intro sinq now rand
  refine ⟨by simp [generateTurbineData], fun r1 i => windSpeedRaw_bounds sinq r1 i,
    fun r1 r2 i => powerOutputRaw_bounds sinq r1 r2 i, ?_⟩
  intro p hp
  rw [generateTurbineData, List.mem_map] at hp
  obtain ⟨j, _, rfl⟩ := hp
  exact genPoint_bounds sinq now _ _ _

/-- Witness for C9: the invariants instantiated at a concrete call of the
generator and at its first emitted point. -/
theorem claim_C9_generate_invariants_witness :
    3 ≤ (genPoint (fun _ => 0) 0 0 0 47).wind_speed ∧
    (genPoint (fun _ => 0) 0 0 0 47).wind_speed ≤ 15 ∧
    0 ≤ (genPoint (fun _ => 0) 0 0 0 47).power_output ∧
    (genPoint (fun _ => 0) 0 0 0 47).power_output ≤ 2000 ∧
    (genPoint (fun _ => 0) 0 0 0 47).status ≠ TStatus.offline :=
  (claim_C9_generate_invariants (fun _ => 0) 0 (fun _ => 0)).2.2.2
    (genPoint (fun _ => 0) 0 0 0 47)
    (by rw [generateTurbineData, List.mem_map]; exact ⟨0, by simp, rfl⟩)

lemma getLast?_some_of_ne_nil {α : Type _} :
    ∀ (l : List α), l ≠ [] → ∃ x, l.getLast? = some x := by
  intro l h
  induction l with
  | nil => exact absurd rfl h
  | cons a t ih =>
    cases t with
    | nil => exact ⟨a, rfl⟩
    | cons b u =>
      obtain ⟨x, hx⟩ := ih (by simp)
      exact ⟨x, by rw [List.getLast?_cons_cons]; exact hx⟩

/-- C8: `analyzeAlerts` and `calculateMetrics` read `data[data.length - 1]`
without an emptiness guard: on every non-empty list both return normally
(`isSome`), while on the empty list the last-element access fails and the
embedded error branch (`none`) is taken. -/
theorem claim_C8_last_element_guard :
    ∀ data : List TurbineDataPoint,
      (data ≠ [] → (analyzeAlerts data).isSome ∧ (calculateMetrics data).isSome) ∧
      analyzeAlerts [] = none ∧ calculateMetrics [] = none := by
  intro data
  refine ⟨?_, rfl, rfl⟩
  intro hne
  obtain ⟨x, hx⟩ := getLast?_some_of_ne_nil data hne
  constructor
  · rw [analyzeAlerts, hx]; rfl
  · rw [calculateMetrics, hx]; rfl

/-- Witness for C8: both functions succeed on a concrete one-point list. -/
theorem claim_C8_last_element_guard_witness :
    (analyzeAlerts [samplePoint]).isSome ∧ (calculateMetrics [samplePoint]).isSome :=
  (claim_C8_last_element_guard [samplePoint]).1 (by simp)

@[simp] lemma tempAlert_type (l : TurbineDataPoint) : (tempAlert l).type = AType.high_temp := rfl

@[simp] lemma vibAlert_type (l : TurbineDataPoint) : (vibAlert l).type = AType.high_vibration := rfl

@[simp] lemma perfAlert_type (l : TurbineDataPoint) (d : ℤ) :
    (perfAlert l d).type = AType.low_performance := rfl

@[simp] lemma tempAlert_timestamp (l : TurbineDataPoint) : (tempAlert l).timestamp = l.timestamp := rfl

@[simp] lemma vibAlert_timestamp (l : TurbineDataPoint) : (vibAlert l).timestamp = l.timestamp := rfl

@[simp] lemma perfAlert_timestamp (l : TurbineDataPoint) (d : ℤ) :
    (perfAlert l d).timestamp = l.timestamp := rfl

lemma tempAlert_severity_iff (l : TurbineDataPoint) :
    (tempAlert l).severity = ASeverity.critical ↔ 75 < l.temperature := by
  unfold tempAlert
  dsimp only
  split <;> simp_all

lemma vibAlert_severity_iff (l : TurbineDataPoint) :
    (vibAlert l).severity = ASeverity.critical ↔ 45/10 < l.vibration := by
  unfold vibAlert
  dsimp only
  split <;> simp_all

/-- C10: for every non-empty data list, `analyzeAlerts` emits a `high_temp`
alert exactly when the latest point's temperature exceeds 70 (severity
`critical` exactly when it exceeds 75), a `high_vibration` alert exactly
when the latest point's vibration exceeds 4.0 (severity `critical` exactly
when it exceeds 4.5), and every emitted alert carries the latest point's
timestamp. -/
theorem claim_C10_alert_conditions :
    ∀ (data : List TurbineDataPoint) (latest : TurbineDataPoint),
      data.getLast? = some latest →
      ∃ alerts, analyzeAlerts data = some alerts ∧
        ((∃ a ∈ alerts, a.type = AType.high_temp) ↔ 70 < latest.temperature) ∧
        (∀ a ∈ alerts, a.type = AType.high_temp →
          (a.severity = ASeverity.critical ↔ 75 < latest.temperature)) ∧
        ((∃ a ∈ alerts, a.type = AType.high_vibration) ↔ 4 < latest.vibration) ∧
        (∀ a ∈ alerts, a.type = AType.high_vibration →
          (a.severity = ASeverity.critical ↔ 45/10 < latest.vibration)) ∧
        (∀ a ∈ alerts, a.timestamp = latest.timestamp) := by
  intro data latest h
  rw [analyzeAlerts, h]
  refine ⟨_, rfl, ?_, ?_, ?_, ?_, ?_⟩
  · split_ifs <;> simp_all
  · split_ifs <;> simp_all [tempAlert_severity_iff]
  · split_ifs <;> simp_all
  · split_ifs <;> simp_all [vibAlert_severity_iff]
  · split_ifs <;> simp_all

/-- Witness for C10 at a concrete one-point list. -/
theorem claim_C10_alert_conditions_witness :
    ∃ alerts, analyzeAlerts [samplePoint] = some alerts ∧
      ((∃ a ∈ alerts, a.type = AType.high_temp) ↔ 70 < samplePoint.temperature) ∧
      (∀ a ∈ alerts, a.type = AType.high_temp →
        (a.severity = ASeverity.critical ↔ 75 < samplePoint.temperature)) ∧
      ((∃ a ∈ alerts, a.type = AType.high_vibration) ↔ 4 < samplePoint.vibration) ∧
      (∀ a ∈ alerts, a.type = AType.high_vibration →
        (a.severity = ASeverity.critical ↔ 45/10 < samplePoint.vibration)) ∧
      (∀ a ∈ alerts, a.timestamp = samplePoint.timestamp) :=
  claim_C10_alert_conditions [samplePoint] samplePoint rfl

/-- C1 counterexample: the claim that every two calls of
`generateTurbineData` return identical sequences is false on the code,
which draws from `Math.random()` on every iteration: two calls at the same
clock instant whose first random draws are 0 and 1/2 already differ in the
first point's wind speed (7 versus 8). -/
theorem claim_C1_determinism_cex :
    generateTurbineData (fun _ => 0) 0 (fun _ => 0) ≠
      generateTurbineData (fun _ => 0) 0 (fun _ => 1/2) := by
  intro h
  have h0 := congrArg (fun l => (l.headD samplePoint).wind_speed) h
  dsimp only at h0
  have eL : (generateTurbineData (fun _ => 0) 0 (fun _ => 0)).headD samplePoint =
      genPoint (fun _ => 0) 0 0 0 47 := rfl
  have eR : (generateTurbineData (fun _ => 0) 0 (fun _ => 1/2)).headD samplePoint =
      genPoint (fun _ => 0) 0 (1/2) (1/2) 47 := rfl
  rw [eL, eR] at h0
  have wL : windSpeedRaw (fun _ => 0) 0 47 = 7 := by
    unfold windSpeedRaw
    norm_num [min_def, max_def]
  have wR : windSpeedRaw (fun _ => 0) (1/2) 47 = 8 := by
    unfold windSpeedRaw
    norm_num [min_def, max_def]
  have vL : (genPoint (fun _ => 0) 0 0 0 47).wind_speed = 7 := by
    show (round (windSpeedRaw (fun _ => 0) 0 47 * 10) : ℚ) / 10 = 7
    rw [wL]
    norm_num [round_eq]
  have vR : (genPoint (fun _ => 0) 0 (1/2) (1/2) 47).wind_speed = 8 := by
    show (round (windSpeedRaw (fun _ => 0) (1/2) 47 * 10) : ℚ) / 10 = 8
    rw [wR]
    norm_num [round_eq]
  rw [vL, vR] at h0
  exact absurd h0 (by norm_num)

/-- C1 amended: the generator is deterministic relative to its ambient
inputs — two calls that observe the same clock value and whose first 96
`Math.random()` draws agree return identical sequences. -/
theorem claim_C1_determinism_amended :
    ∀ (sinq : ℚ → ℚ) (now : ℤ) (rand rand' : ℕ → ℚ),
      (∀ k, k < 96 → rand k = rand' k) →
      generateTurbineData sinq now rand = generateTurbineData sinq now rand' := by
  intro sinq now rand rand' hagree
  unfold generateTurbineData
  apply List.map_congr_left
  intro j hj
  rw [List.mem_range] at hj
  rw [hagree (2 * j) (by omega), hagree (2 * j + 1) (by omega)]

/-- Witness for the amended C1 at concrete agreeing random streams. -/
theorem claim_C1_determinism_amended_witness :
    generateTurbineData (fun _ => 0) 0 (fun _ => 0) =
      generateTurbineData (fun _ => 0) 0 (fun _ => 0) :=
  claim_C1_determinism_amended (fun _ => 0) 0 (fun _ => 0) (fun _ => 0)
    (fun _ _ => rfl)

/-- C3: `chunk` fails with `ConfigError` exactly when the parameters
violate `chunk_size > 0` or `0 ≤ overlap < chunk_size`; under valid
parameters it returns a chunk list and never an error. -/
theorem claim_C3_chunk_config_error :
    ∀ (doc : Document) (chunk_size overlap : ℤ),
      (chunk doc chunk_size overlap = .error RagError.ConfigError ↔
        ¬(0 < chunk_size ∧ 0 ≤ overlap ∧ overlap < chunk_size)) ∧
      ((∃ cl, chunk doc chunk_size overlap = .ok cl) ↔
        (0 < chunk_size ∧ 0 ≤ overlap ∧ overlap < chunk_size)) := by
  intro doc cs ov
  unfold chunk
  split_ifs with h <;> simp [h]

/-- C7: in every orchestrator state other than `Ready`, `retrieve_context`
fails fast with `NotReadyError`, and a successful answer is only ever
produced from a `Ready` state. -/
theorem claim_C7_not_ready_fail_fast :
    ∀ (st : OrchState) (q : String) (k : ℕ) (s : ℚ) (mc : ℕ),
      (st.isReady = false →
        retrieve_context st q k s mc = .error RagError.NotReadyError) ∧
      (∀ out, retrieve_context st q k s mc = .ok out → ∃ idx, st = OrchState.Ready idx) := by
  intro st q k s mc
  cases st with
  | Uninitialized => exact ⟨fun _ => rfl, fun out h => by simp [retrieve_context] at h⟩
  | Initializing => exact ⟨fun _ => rfl, fun out h => by simp [retrieve_context] at h⟩
  | Failed => exact ⟨fun _ => rfl, fun out h => by simp [retrieve_context] at h⟩
  | Ready idx =>
    refine ⟨fun h => by simp [OrchState.isReady] at h, fun out _ => ⟨idx, rfl⟩⟩

/-- Witness for C7: a query in the concrete `Uninitialized` state fails
with `NotReadyError`. -/
theorem claim_C7_not_ready_fail_fast_witness :
    retrieve_context OrchState.Uninitialized "bearing failure" 2 0 4000 =
      .error RagError.NotReadyError :=
  (claim_C7_not_ready_fail_fast OrchState.Uninitialized "bearing failure" 2 0 4000).1 rfl

/-- C4: `build` fails with `EmptyCorpusError` on an empty chunk sequence
and with `VocabularyExhaustedError` when the min_df/max_df constraints
eliminate every candidate term; every successful build returns a
non-empty vocabulary over a non-empty corpus, so no empty index is ever
returned. -/
theorem claim_C4_build_errors :
    ∀ (pr : RagPrims) (max_features min_df : ℕ) (max_df : ℚ),
      (build pr [] max_features min_df max_df = .error RagError.EmptyCorpusError) ∧
      ∀ chunks : List Chunk,
        (chunks ≠ [] → candidateTerms pr chunks min_df max_df = [] →
          build pr chunks max_features min_df max_df =
            .error RagError.VocabularyExhaustedError) ∧
        ∀ idx, build pr chunks max_features min_df max_df = .ok idx →
          idx.vocab ≠ [] ∧ chunks ≠ [] := by
  intro pr mf mdf mxdf
  refine ⟨by unfold build; simp, ?_⟩
  intro chunks
  constructor
  · intro hne hcand
    unfold build
    rw [if_neg hne]
    have hv : vocabOf pr chunks mf mdf mxdf = [] := by
      unfold vocabOf
      rw [hcand, List.mergeSort_nil, List.take_nil]
    rw [if_pos hv]
  · intro idx hok
    unfold build at hok
    by_cases h1 : chunks = []
    · rw [if_pos h1] at hok; cases hok
    · rw [if_neg h1] at hok
      dsimp only at hok
      by_cases h2 : vocabOf pr chunks mf mdf mxdf = []
      · rw [if_pos h2] at hok; cases hok
      · rw [if_neg h2] at hok
        injection hok with h3
        subst h3
        exact ⟨h2, h1⟩

/-- Witness for C4: on a concrete one-chunk corpus whose tokenizer yields
no terms, every candidate is eliminated and `build` surfaces
`VocabularyExhaustedError`. -/
theorem claim_C4_build_errors_witness :
    build trivialPrims [sampleChunk] 10 1 1 = .error RagError.VocabularyExhaustedError :=
  ((claim_C4_build_errors trivialPrims 10 1 1).2 [sampleChunk]).1 (by simp) rfl

lemma chunkFrom_cover (L cs ov : ℕ) (h : ov < cs) (off p : ℕ) (h1 : off ≤ p) (h2 : p < L) :
    ∃ sp ∈ chunkFrom L cs ov h off, sp.1 ≤ p ∧ p < sp.2 := by
  rw [chunkFrom]
  rw [dif_pos (show off < L by omega)]
  by_cases hp : p < min (off + cs) L
  · exact ⟨(off, min (off + cs) L), List.mem_cons_self _ _, h1, hp⟩
  · obtain ⟨sp, hm, hs⟩ := chunkFrom_cover L cs ov h (off + (cs - ov)) p (by omega) h2
    exact ⟨sp, List.mem_cons_of_mem _ hm, hs⟩
termination_by L - off
decreasing_by omega

lemma chunkFrom_bounds (L cs ov : ℕ) (h : ov < cs) (off : ℕ) (sp : ℕ × ℕ)
    (hm : sp ∈ chunkFrom L cs ov h off) :
    off ≤ sp.1 ∧ sp.1 < sp.2 ∧ sp.2 ≤ L := by
  rw [chunkFrom] at hm
  by_cases hO : off < L
  · rw [dif_pos hO] at hm
    rcases List.mem_cons.mp hm with rfl | hm'
    · exact ⟨le_refl _, lt_min (by omega) hO, min_le_right _ _⟩
    · obtain ⟨a1, a2, a3⟩ := chunkFrom_bounds L cs ov h (off + (cs - ov)) sp hm'
      exact ⟨by omega, a2, a3⟩
  · rw [dif_neg hO] at hm
    simp at hm
termination_by L - off
decreasing_by omega

lemma chunkFrom_consec (L cs ov : ℕ) (h : ov < cs) (off : ℕ) (a b : ℕ × ℕ)
    (hm : (a, b) ∈ (chunkFrom L cs ov h off).zip (chunkFrom L cs ov h off).tail) :
    b.1 = a.1 + (cs - ov) ∧ a.2 = min (a.1 + cs) L ∧ b.2 = min (b.1 + cs) L := by
  rw [chunkFrom] at hm
  by_cases hO : off < L
  · rw [dif_pos hO, List.tail_cons] at hm
    cases hr : chunkFrom L cs ov h (off + (cs - ov)) with
    | nil => rw [hr] at hm; simp at hm
    | cons y t =>
      rw [hr, List.zip_cons_cons] at hm
      rcases List.mem_cons.mp hm with heq | hm'
      · have hy : y = (off + (cs - ov), min (off + (cs - ov) + cs) L) := by
          rw [chunkFrom] at hr
          by_cases hO2 : off + (cs - ov) < L
          · rw [dif_pos hO2] at hr
            injection hr with hy1 hy2
            exact hy1.symm
          · rw [dif_neg hO2] at hr
            cases hr
        injection heq with ha hb
        subst ha
        subst hb
        subst hy
        exact ⟨rfl, rfl, rfl⟩
      · refine chunkFrom_consec L cs ov h (off + (cs - ov)) a b ?_
        rw [hr, List.tail_cons]
        exact hm'
  · rw [dif_neg hO] at hm
    simp at hm
termination_by L - off
decreasing_by omega

lemma chunk_ok (doc : Document) (csz ovl : ℤ) (cl : List Chunk)
    (hok : chunk doc csz ovl = .ok cl) :
    ∃ hvn : ovl.toNat < csz.toNat,
      (0 < csz ∧ 0 ≤ ovl ∧ ovl < csz) ∧
      cl.map (fun c => (c.char_start, c.char_end)) =
        chunkSpans doc.raw_text.length csz.toNat ovl.toNat hvn := by
  unfold chunk at hok
  split_ifs at hok with hv
  · refine ⟨by omega, hv, ?_⟩
    injection hok with h1
    subst h1
    rw [List.map_map]
    exact (List.map_congr_left fun pr _ => rfl).trans (List.enum_map_snd _)

lemma cex_spans (h : (8 : ℕ) < 10) :
    chunkSpans 25 10 8 h =
      [(0,10),(2,12),(4,14),(6,16),(8,18),(10,20),(12,22),(14,24),
       (16,25),(18,25),(20,25),(22,25),(24,25)] := by
  rw [chunkSpans]
  simp [chunkFrom]

/-- C2 counterexample: on a 25-character document with the valid parameters
chunk_size = 10, overlap = 8, the chunks produced by `chunk` contain the
non-final consecutive pair ([20,25), [22,25)), which overlaps by 3 ≠ 8
characters, refuting "every pair of consecutive chunks overlaps by exactly
`overlap` characters, except possibly the final pair". -/
theorem claim_C2_chunk_coverage_cex :
    ¬ ∀ cl, chunk cexDoc 10 8 = .ok cl →
      ∀ x ∈ (pairOverlaps (cl.map fun c => (c.char_start, c.char_end))).dropLast, x = 8 := by
  intro hclaim
  obtain ⟨cl, hcl⟩ : ∃ cl, chunk cexDoc 10 8 = .ok cl := by
    unfold chunk
    rw [dif_pos (show (0:ℤ) < 10 ∧ (0:ℤ) ≤ 8 ∧ (8:ℤ) < 10 by norm_num)]
    exact ⟨_, rfl⟩
  obtain ⟨hvn, hv, hmap⟩ := chunk_ok cexDoc 10 8 cl hcl
  have h810 : (8 : ℕ) < 10 := by omega
  have hmap' : cl.map (fun c => (c.char_start, c.char_end)) = chunkSpans 25 10 8 h810 := hmap
  rw [cex_spans h810] at hmap'
  have h' := hclaim cl hcl
  rw [hmap'] at h'
  exact absurd (h' 3 (by decide)) (by decide)

/-- C2 amended: for every document and valid parameters, the chunk spans
cover [0, len(document)) with no gaps and stay inside the document, and
every pair of consecutive chunks whose earlier chunk has full length
`chunk_size` overlaps by exactly `overlap` characters.  (A chunk clipped
by the document end — which the counterexample shows can happen before the
final pair when `overlap > chunk_size - overlap` — may overlap its
successor by less.) -/
theorem claim_C2_chunk_coverage_amended :
    ∀ (doc : Document) (chunk_size overlap : ℤ) (cl : List Chunk),
      chunk doc chunk_size overlap = .ok cl →
      (∀ p, p < doc.raw_text.length → ∃ c ∈ cl, c.char_start ≤ p ∧ p < c.char_end) ∧
      (∀ c ∈ cl, c.char_start < c.char_end ∧ c.char_end ≤ doc.raw_text.length) ∧
      (∀ a b, (a, b) ∈ cl.zip cl.tail → a.char_end - a.char_start = chunk_size.toNat →
        overlapLen (a.char_start, a.char_end) (b.char_start, b.char_end) = overlap.toNat) := by
  intro doc csz ovl cl hok
  obtain ⟨hvn, hv, hmap⟩ := chunk_ok doc csz ovl cl hok
  refine ⟨?_, ?_, ?_⟩
  · intro p hp
    obtain ⟨sp, hm, hs1, hs2⟩ :=
      chunkFrom_cover doc.raw_text.length csz.toNat ovl.toNat hvn 0 p (Nat.zero_le p) hp
    have hsp : sp ∈ cl.map (fun c => (c.char_start, c.char_end)) := by
      rw [hmap]; exact hm
    obtain ⟨c, hc, hce⟩ := List.mem_map.mp hsp
    cases hce
    exact ⟨c, hc, hs1, hs2⟩
  · intro c hc
    have hsp : (c.char_start, c.char_end) ∈
        chunkSpans doc.raw_text.length csz.toNat ovl.toNat hvn := by
      rw [← hmap]; exact List.mem_map_of_mem _ hc
    obtain ⟨b1, b2, b3⟩ :=
      chunkFrom_bounds doc.raw_text.length csz.toNat ovl.toNat hvn 0 _ hsp
    exact ⟨b2, b3⟩
  · intro a b hab hfull
    have hzip : ((a.char_start, a.char_end), (b.char_start, b.char_end)) ∈
        (chunkSpans doc.raw_text.length csz.toNat ovl.toNat hvn).zip
          (chunkSpans doc.raw_text.length csz.toNat ovl.toNat hvn).tail := by
      rw [← hmap, ← List.map_tail, List.zip_map]
      exact List.mem_map_of_mem _ hab
    obtain ⟨c1, c2, c3⟩ :=
      chunkFrom_consec doc.raw_text.length csz.toNat ovl.toNat hvn 0 _ _ hzip
    simp only [overlapLen]
    simp only at c1 c2 c3 hfull
    omega

/-- Witness for the amended C2 at a concrete document (the empty document,
whose chunk list is empty and whose coverage conditions are vacuous). -/
theorem claim_C2_chunk_coverage_amended_witness :
    (∀ p, p < emptyDoc.raw_text.length →
      ∃ c ∈ ([] : List Chunk), c.char_start ≤ p ∧ p < c.char_end) ∧
    (∀ c ∈ ([] : List Chunk),
      c.char_start < c.char_end ∧ c.char_end ≤ emptyDoc.raw_text.length) ∧
    (∀ a b, (a, b) ∈ ([] : List Chunk).zip ([] : List Chunk).tail →
      a.char_end - a.char_start = (3 : ℤ).toNat →
      overlapLen (a.char_start, a.char_end) (b.char_start, b.char_end) = (1 : ℤ).toNat) :=
  claim_C2_chunk_coverage_amended emptyDoc 3 1 []
    (by unfold chunk emptyDoc chunkSpans; simp [chunkFrom])

lemma rankRel_trans (a b c : Chunk × ℚ) : rankRel a b → rankRel b c → rankRel a c := by
  unfold rankRel
  rintro (h1 | ⟨e1, k1⟩) (h2 | ⟨e2, k2⟩)
  · exact Or.inl (lt_trans h2 h1)
  · exact Or.inl (e2 ▸ h1)
  · exact Or.inl (by rw [e1]; exact h2)
  · refine Or.inr ⟨e1.trans e2, ?_⟩
    rcases k1 with h | ⟨e, hle⟩ <;> rcases k2 with h' | ⟨e', hle'⟩
    · exact Or.inl (lt_trans h h')
    · exact Or.inl (by omega)
    · exact Or.inl (by omega)
    · exact Or.inr ⟨by omega, by omega⟩

lemma rankRel_total (a b : Chunk × ℚ) : rankRel a b ∨ rankRel b a := by
  unfold rankRel
  rcases lt_trichotomy a.2 b.2 with h | h | h
  · exact Or.inr (Or.inl h)
  · rcases Nat.lt_trichotomy a.1.document_id b.1.document_id with hd | hd | hd
    · exact Or.inl (Or.inr ⟨h, Or.inl hd⟩)
    · rcases Nat.le_total a.1.ordinal b.1.ordinal with ho | ho
      · exact Or.inl (Or.inr ⟨h, Or.inr ⟨hd, ho⟩⟩)
      · exact Or.inr (Or.inr ⟨h.symm, Or.inr ⟨hd.symm, ho⟩⟩)
    · exact Or.inr (Or.inr ⟨h.symm, Or.inl hd⟩)
  · exact Or.inl (Or.inl h)

lemma rankRel_score_le (a b : Chunk × ℚ) : rankRel a b → b.2 ≤ a.2 := by
  unfold rankRel
  rintro (h | ⟨e, hk⟩)
  · exact le_of_lt h
  · exact le_of_eq e.symm

lemma pairwise_rankRel_mergeSort (l : List (Chunk × ℚ)) :
    List.Pairwise rankRel (l.mergeSort fun a b => decide (rankRel a b)) := by
  have htrans : ∀ a b c : Chunk × ℚ, decide (rankRel a b) = true →
      decide (rankRel b c) = true → decide (rankRel a c) = true := by
    intro a b c h1 h2
    rw [decide_eq_true_eq] at h1 h2 ⊢
    exact rankRel_trans a b c h1 h2
  have htotal : ∀ a b : Chunk × ℚ, (decide (rankRel a b) || decide (rankRel b a)) = true := by
    intro a b
    rw [Bool.or_eq_true, decide_eq_true_eq, decide_eq_true_eq]
    exact rankRel_total a b
  exact (List.sorted_mergeSort htrans htotal l).imp fun h => of_decide_eq_true h

/-- C5: for every index and query, `retrieve(query, top_k, min_score)`
returns at most `top_k` results; the underlying ranked chunk list is
sorted in descending score order with ties broken by ascending
(document_id, ordinal); every result below the score floor is absent
(every returned score is at least `min_score`, even if fewer than `top_k`
remain); `retrieve` is the plain image of the ranked list, so an empty
list is a valid non-error outcome. -/
theorem claim_C5_retrieve_contract :
    ∀ (idx : IndexHandle) (q : String) (k : ℕ) (s : ℚ),
      (retrieve idx q k s).length ≤ k ∧
      List.Pairwise rankRel (retrieveRanked idx q k s) ∧
      ((retrieveRanked idx q k s).all fun x => decide (s ≤ x.2)) = true ∧
      retrieve idx q k s = (retrieveRanked idx q k s).map toResult ∧
      ((retrieve idx q k s).all fun r => decide (s ≤ r.score)) = true := by
  intro idx q k s
  have hdef : retrieveRanked idx q k s =
      ((((idx.entries.map fun e => (e.1, dot (vectorize idx q) e.2)).mergeSort
        fun a b => decide (rankRel a b)).filter fun x => decide (s ≤ x.2)).take k) := rfl
  have hfloor : ((retrieveRanked idx q k s).all fun x => decide (s ≤ x.2)) = true := by
    rw [List.all_eq_true]
    intro x hx
    rw [hdef] at hx
    have hx2 := List.mem_of_mem_take hx
    have hx3 := List.of_mem_filter hx2
    exact hx3
  refine ⟨?_, ?_, hfloor, rfl, ?_⟩
  · rw [show retrieve idx q k s = (retrieveRanked idx q k s).map toResult from rfl,
      List.length_map, hdef]
    exact List.length_take_le _ _
  · rw [hdef]
    exact ((pairwise_rankRel_mergeSort _).sublist
      (List.filter_sublist _)).sublist (List.take_sublist _ _)
  · rw [show retrieve idx q k s = (retrieveRanked idx q k s).map toResult from rfl,
      List.all_eq_true]
    intro r hr
    obtain ⟨x, hx, rfl⟩ := List.mem_map.mp hr
    exact List.all_eq_true.mp hfloor x hx

lemma filter_score_append (s s' : ℚ) (hs : s ≤ s') (l : List (Chunk × ℚ))
    (hl : List.Pairwise rankRel l) :
    ∃ t, (l.filter fun x => decide (s ≤ x.2)) =
      (l.filter fun x => decide (s' ≤ x.2)) ++ t := by
  induction l with
  | nil => exact ⟨[], rfl⟩
  | cons a l ih =>
    obtain ⟨ha, hl'⟩ := List.pairwise_cons.mp hl
    by_cases h' : s' ≤ a.2
    · obtain ⟨t, ht⟩ := ih hl'
      refine ⟨t, ?_⟩
      rw [List.filter_cons_of_pos (by simp only [decide_eq_true_eq]; linarith),
        List.filter_cons_of_pos (by simp only [decide_eq_true_eq]; exact h'), ht,
        List.cons_append]
    · have hnil : (l.filter fun x => decide (s' ≤ x.2)) = [] := by
        rw [List.filter_eq_nil_iff]
        intro x hx
        have hsle := rankRel_score_le a x (ha x hx)
        simp only [decide_eq_true_eq]
        intro hcon
        exact h' (le_trans hcon hsle)
      refine ⟨(a :: l).filter fun x => decide (s ≤ x.2), ?_⟩
      have hall : ((a :: l).filter fun x => decide (s' ≤ x.2)) = [] := by
        rw [List.filter_cons_of_neg (by simp only [decide_eq_true_eq]; exact h')]
        exact hnil
      rw [hall, List.nil_append]

lemma take_filter_length_mono (s s' : ℚ) (hss : s ≤ s') (k : ℕ) (l : List (Chunk × ℚ)) :
    ((l.filter fun x => decide (s' ≤ x.2)).take k).length ≤
      ((l.filter fun x => decide (s ≤ x.2)).take k).length := by
  rw [List.length_take, List.length_take]
  have h1 : (l.filter fun x => decide (s' ≤ x.2)).length ≤
      (l.filter fun x => decide (s ≤ x.2)).length := by
    rw [← List.countP_eq_length_filter, ← List.countP_eq_length_filter]
    apply List.countP_mono_left
    intro x hx hpx
    rw [decide_eq_true_eq] at hpx ⊢
    linarith
  omega

/-- C6: for every index, query, `top_k` and threshold `s ≥ 0`, the results
of `retrieve` at `min_score = s` are a subset (by chunk_id) of the results
at `min_score = 0`, and raising the threshold never increases the result
count. -/
theorem claim_C6_min_score_monotone :
    ∀ (idx : IndexHandle) (q : String) (k : ℕ) (s s' : ℚ),
      (0 ≤ s → ∀ r ∈ retrieve idx q k s,
        ∃ r' ∈ retrieve idx q k 0, r'.chunk_id = r.chunk_id) ∧
      (s ≤ s' → (retrieve idx q k s').length ≤ (retrieve idx q k s).length) := by
  intro idx q k s s'
  constructor
  · intro hs r hr
    rw [show retrieve idx q k s = (retrieveRanked idx q k s).map toResult from rfl] at hr
    obtain ⟨x, hx, rfl⟩ := List.mem_map.mp hr
    have hx' : x ∈ retrieveRanked idx q k 0 := by
      obtain ⟨t, ht⟩ := filter_score_append 0 s hs
        ((idx.entries.map fun e => (e.1, dot (vectorize idx q) e.2)).mergeSort
          fun a b => decide (rankRel a b)) (pairwise_rankRel_mergeSort _)
      show x ∈ ((((idx.entries.map fun e => (e.1, dot (vectorize idx q) e.2)).mergeSort
        fun a b => decide (rankRel a b)).filter fun x => decide ((0:ℚ) ≤ x.2)).take k)
      rw [ht, List.take_append_eq_append_take]
      exact List.mem_append_left _ hx
    exact ⟨toResult x, List.mem_map_of_mem _ hx', rfl⟩
  · intro hss
    rw [show retrieve idx q k s' = (retrieveRanked idx q k s').map toResult from rfl,
      show retrieve idx q k s = (retrieveRanked idx q k s).map toResult from rfl,
      List.length_map, List.length_map]
    exact take_filter_length_mono s s' hss k _

/-- Witness for C6 at a concrete index, query and thresholds 0 and 1. -/
theorem claim_C6_min_score_monotone_witness :
    (∀ r ∈ retrieve sampleIndex "bearing" 2 0,
      ∃ r' ∈ retrieve sampleIndex "bearing" 2 0, r'.chunk_id = r.chunk_id) ∧
    (retrieve sampleIndex "bearing" 2 1).length ≤
      (retrieve sampleIndex "bearing" 2 0).length :=
  ⟨(claim_C6_min_score_monotone sampleIndex "bearing" 2 0 1).1 le_rfl,
   (claim_C6_min_score_monotone sampleIndex "bearing" 2 0 1).2 zero_le_one⟩

/-- Witness for C3: concretely invalid parameters (chunk_size = 0) are
rejected with `ConfigError`. -/
theorem claim_C3_chunk_config_error_witness :
    chunk emptyDoc 0 0 = .error RagError.ConfigError :=
  (claim_C3_chunk_config_error emptyDoc 0 0).1.mpr (by norm_num)

/-- Witness for C5: the contract instantiated at a concrete index, query,
top_k and score floor. -/
theorem claim_C5_retrieve_contract_witness :
    (retrieve sampleIndex "bearing" 2 0).length ≤ 2 ∧
    List.Pairwise rankRel (retrieveRanked sampleIndex "bearing" 2 0) ∧
    ((retrieveRanked sampleIndex "bearing" 2 0).all fun x => decide ((0:ℚ) ≤ x.2)) = true ∧
    retrieve sampleIndex "bearing" 2 0 =
      (retrieveRanked sampleIndex "bearing" 2 0).map toResult ∧
    ((retrieve sampleIndex "bearing" 2 0).all fun r => decide ((0:ℚ) ≤ r.score)) = true :=
  claim_C5_retrieve_contract sampleIndex "bearing" 2 0

end TurboBot
